import Mathlib

/-!
Shallow embedding of the Tuniverse backend's artist-origin resolution and
aggregation engine (backend/routers/passport.py and
backend/routers/community.py), together with proofs of the specification's
claims about it.

Modelling conventions:
* Python `dict`s are association lists `List (String × V)` with unique keys,
  manipulated only through `dictFind?` / `dictGetD` / `dictSet` / `dictIncr`,
  which mirror `d.get(k)`, `d.get(k, v0)`, `d[k] = v` and
  `d[k] = d.get(k, 0) + v` (insertion order preserved, in-place update of an
  existing key).
* Python `float` percentages are modelled as exact rationals `ℚ`; the spec's
  1e-9 tolerance statements hold a fortiori.
* The external MusicBrainz collaborator is an oracle `fetch : String → MBResp`;
  an exception raised by `requests` (timeout, non-2xx, bad json) is the
  constructor `MBResp.error`, and the process-wide mutable state
  (`MB_COUNTRY_CACHE` plus the number of external HTTP calls issued) is
  threaded explicitly as `ResolverState`.
* `None`-able Python values are `Option`; a Python truthiness test on a string
  (`if not name`) is `none`-or-`""`.
-/

namespace Tuniverse

/-- Python `d.get(k)` on a dict: first (unique) binding of `k`, if any. -/
def dictFind? {V : Type} (d : List (String × V)) (k : String) : Option V :=
  match d with
  | [] => none
  | (k', v) :: rest => if k' = k then some v else dictFind? rest k

/-- Python `d.get(k, v0)` on a dict. -/
def dictGetD {V : Type} (d : List (String × V)) (k : String) (v0 : V) : V :=
  match d with
  | [] => v0
  | (k', v) :: rest => if k' = k then v else dictGetD rest k v0

/-- Python `d[k] = v` on a dict: update in place if the key exists
(preserving its position), else append. -/
def dictSet {V : Type} (d : List (String × V)) (k : String) (v : V) :
    List (String × V) :=
  match d with
  | [] => [(k, v)]
  | (k', v') :: rest =>
      if k' = k then (k', v) :: rest else (k', v') :: dictSet rest k v

/-- Python `d[k] = d.get(k, 0) + v`, the counting idiom used throughout the source. -/
def dictIncr (d : List (String × Nat)) (k : String) (v : Nat) :
    List (String × Nat) :=
  dictSet d k (dictGetD d k 0 + v)

/-- Sum of all values bound to key `k` (equals `dictGetD d k 0` when the
keys of `d` are unique, as they are for every real Python dict). -/
def lookupSum (d : List (String × Nat)) (k : String) : Nat :=
  ((d.filter (fun p => p.1 == k)).map Prod.snd).sum

/-- Python `sum(d.values())`. -/
def valuesSum (d : List (String × Nat)) : Nat :=
  (d.map Prod.snd).sum

/-! ## backend/routers/passport.py : static tables -/

/-- The table `COUNTRY_TO_REGION`, the minimal country → region map of passport.py,
entry for entry in source order. -/
def COUNTRY_TO_REGION : List (String × String) :=
  [("United States", "North America"), ("Canada", "North America"),
   ("Mexico", "North America"),
   ("United Kingdom", "Europe"), ("Ireland", "Europe"), ("Germany", "Europe"),
   ("France", "Europe"),
   ("Spain", "Europe"), ("Italy", "Europe"), ("Netherlands", "Europe"),
   ("Sweden", "Europe"),
   ("Norway", "Europe"), ("Finland", "Europe"), ("Denmark", "Europe"),
   ("Poland", "Europe"),
   ("Portugal", "Europe"), ("Russia", "Europe"),
   ("Japan", "Asia"), ("South Korea", "Asia"), ("China", "Asia"),
   ("India", "Asia"),
   ("Australia", "Oceania"), ("New Zealand", "Oceania"),
   ("Brazil", "South America"), ("Argentina", "South America"),
   ("Chile", "South America"), ("Colombia", "South America"),
   ("South Africa", "Africa"), ("Nigeria", "Africa"), ("Egypt", "Africa"),
   ("US", "North America"), ("CA", "North America"), ("GB", "Europe"),
   ("FR", "Europe"),
   ("DE", "Europe"), ("ES", "Europe"), ("IT", "Europe"), ("SE", "Europe"),
   ("JP", "Asia"), ("KR", "Asia"), ("CN", "Asia"), ("IN", "Asia"),
   ("AU", "Oceania"), ("NZ", "Oceania"),
   ("BR", "South America"), ("AR", "South America"), ("CL", "South America"),
   ("CO", "South America"),
   ("ZA", "Africa"), ("NG", "Africa"), ("EG", "Africa")]

/-- Source `region_of(country)`: `None` for a falsy country (Python `if not country`,
i.e. `None` or `""`), else `COUNTRY_TO_REGION.get(country)`. -/
def region_of (country : Option String) : Option String :=
  match country with
  | none => none
  | some c => if c = "" then none else dictFind? COUNTRY_TO_REGION c

/-- The `reg_counts` accumulation loop of `rollup_regions`: region of each
country via `region_of`, defaulting to `"Unknown"`, counts accumulated per
region. -/
def reg_counts_of (country_counts : List (String × Nat)) :
    List (String × Nat) :=
  country_counts.foldl
    (fun (acc : List (String × Nat)) p =>
      dictIncr acc ((region_of (some p.1)).getD "Unknown") p.2) []

/-- Source `rollup_regions(country_counts)`: returns `{}` when the total is zero,
otherwise accumulates counts per region (`region_of` defaulting to
`"Unknown"`) and divides each region's count by the total. -/
def rollup_regions (country_counts : List (String × Nat)) :
    List (String × ℚ) :=
  let total := valuesSum country_counts
  if total = 0 then []
  else (reg_counts_of country_counts).map
    (fun p => (p.1, (p.2 : ℚ) / (total : ℚ)))

/-- The table `QUICK_COUNTRY_SEEDS`, the seed table of passport.py, entry for entry. -/
def QUICK_COUNTRY_SEEDS : List (String × String) :=
  [("Taylor Swift", "United States"),
   ("Drake", "Canada"),
   ("Bad Bunny", "Puerto Rico"),
   ("Adele", "United Kingdom"),
   ("BTS", "South Korea"),
   ("BLACKPINK", "South Korea"),
   ("Daft Punk", "France"),
   ("Arctic Monkeys", "United Kingdom"),
   ("The Beatles", "United Kingdom"),
   ("Kendrick Lamar", "United States"),
   ("YOASOBI", "Japan"),
   ("IU", "South Korea"),
   ("Rammstein", "Germany")]

/-! ## backend/routers/passport.py : MusicBrainz lookup and resolver -/

/-- The single best-match artist record of a MusicBrainz response.
`country` is the `"country"` key when present (its value may be any string);
`area` / `begin_area` collapse `isinstance(a.get(key), dict)` plus
`a[key].get("name")`: `some nm` means the key holds a dict whose `"name"`
is `nm` (possibly `""`, which the source treats as falsy), `none` means the
key is absent, not a dict, or its dict has no `"name"`. -/
structure MBArtist where
  country : Option String
  area : Option String
  begin_area : Option String
deriving Repr, DecidableEq

/-- A MusicBrainz query outcome: `error` is any raised exception
(timeout, non-2xx via `raise_for_status`, malformed json); `ok artists` is a
parsed body whose `"artists"` list is `artists` (absent key = `[]`). -/
inductive MBResp where
  | error : MBResp
  | ok : List MBArtist → MBResp
deriving Repr, DecidableEq

/-- Process-wide resolver state: `MB_COUNTRY_CACHE` (values are the cached
`Optional[str]` results, so `dictFind?` returns `Option (Option String)`)
plus a counter of external HTTP calls issued, used to state the
at-most-one-call-per-name property. -/
structure ResolverState where
  cache : List (String × Option String)
  calls : Nat
deriving Repr, DecidableEq

/-- Source `mb_lookup_country(artist_name)`: returns `None` immediately when MB is
disabled; otherwise cache hit short-circuits; otherwise one external call,
whose outcome (country field, else truthy `area`/`begin-area` name, else
`None` — also on any exception) is written to the cache before returning. -/
def mb_lookup_country (useMB : Bool) (fetch : String → MBResp)
    (st : ResolverState) (artist_name : String) :
    Option String × ResolverState :=
  if !useMB then (none, st)
  else
    match dictFind? st.cache artist_name with
    | some cached => (cached, st)
    | none =>
      let st1 : ResolverState := { st with calls := st.calls + 1 }
      match fetch artist_name with
      | MBResp.error =>
          (none, { st1 with cache := dictSet st1.cache artist_name none })
      | MBResp.ok artists =>
        match artists with
        | [] =>
            (none, { st1 with cache := dictSet st1.cache artist_name none })
        | a :: _ =>
          match a.country with
          | some c =>
              (some c,
               { st1 with cache := dictSet st1.cache artist_name (some c) })
          | none =>
            match a.area with
            | some nm =>
              if nm = "" then
                match a.begin_area with
                | some nm2 =>
                  if nm2 = "" then
                    (none,
                     { st1 with cache := dictSet st1.cache artist_name none })
                  else
                    (some nm2,
                     { st1 with
                         cache := dictSet st1.cache artist_name (some nm2) })
                | none =>
                    (none,
                     { st1 with cache := dictSet st1.cache artist_name none })
              else
                (some nm,
                 { st1 with cache := dictSet st1.cache artist_name (some nm) })
            | none =>
              match a.begin_area with
              | some nm2 =>
                if nm2 = "" then
                  (none,
                   { st1 with cache := dictSet st1.cache artist_name none })
                else
                  (some nm2,
                   { st1 with
                       cache := dictSet st1.cache artist_name (some nm2) })
              | none =>
                  (none,
                   { st1 with cache := dictSet st1.cache artist_name none })

/-- Source `infer_country_fast(artist_name)`: seed table, then (optional, cached)
MusicBrainz, then `"Unknown"` (`c or "Unknown"` also maps `""` to
`"Unknown"`). -/
def infer_country_fast (useMB : Bool) (fetch : String → MBResp)
    (st : ResolverState) (artist_name : String) : String × ResolverState :=
  match dictFind? QUICK_COUNTRY_SEEDS artist_name with
  | some c => (c, st)
  | none =>
    let r := mb_lookup_country useMB fetch st artist_name
    (match r.1 with
     | some c => if c = "" then "Unknown" else c
     | none => "Unknown", r.2)

/-! ## backend/routers/passport.py : live passport snapshots -/

/-- The snapshot shape produced by every passport builder:
`{total_artists, country_counts, region_percentages}`. -/
structure Snapshot where
  total_artists : Nat
  country_counts : List (String × Nat)
  region_percentages : List (String × ℚ)
deriving Repr, DecidableEq

/-- Error taxonomy surfaced to HTTP callers (`HTTPException` / request
validation): 404 unknown join code, 400 bad token, 422 invalid query
parameter. -/
inductive ApiError where
  | notFound : ApiError
  | invalidToken : ApiError
  | invalidInput : ApiError
deriving Repr, DecidableEq

/-- Loop body of `passport_from_token`: skip a falsy name, otherwise resolve
it and increment `total_artists` and the resolved country's count. -/
def from_token_step (useMB : Bool) (fetch : String → MBResp)
    (acc : Nat × List (String × Nat) × ResolverState)
    (nameOpt : Option String) : Nat × List (String × Nat) × ResolverState :=
  match nameOpt with
  | none => acc
  | some name =>
    if name = "" then acc
    else
      let rc := infer_country_fast useMB fetch acc.2.2 name
      (acc.1 + 1, dictIncr acc.2.1 rc.1 1, rc.2)

/-- Route `GET /passport/from_token` (`passport_from_token`). The Spotify response
is `none` when `top` is not a dict or has no `"items"` (the route then raises
400); otherwise `some items` where each element is the item's `"name"` field
(`none` = absent, and `if not name: continue` also skips `""`). For each
retained name the resolver is consulted (threading the process-wide resolver
state) and its country's count and `total_artists` are incremented once. -/
def passport_from_token (useMB : Bool) (fetch : String → MBResp)
    (st : ResolverState) (top : Option (List (Option String))) :
    Except ApiError Snapshot × ResolverState :=
  match top with
  | none => (Except.error ApiError.invalidInput, st)
  | some items =>
    let r := items.foldl (from_token_step useMB fetch) (0, [], st)
    (Except.ok
      { total_artists := r.1, country_counts := r.2.1,
        region_percentages := rollup_regions r.2.1 },
     r.2.2)

/-- The artist-name de-duplication loop of `passport_from_token_recent`:
`items` is the recently-played list, one entry per track, each entry the list
of that track's artists' `"name"` fields (the source's
`(it or \x7b\x7d).get("track") or \x7b\x7d` / `.get("artists") or []`
defaulting collapses falsy levels to `[]`). A name is kept when it is truthy
and not yet seen, preserving first-seen order. `dedup_push` is the
per-artist body (`if nm and nm not in seen`; the `seen` set always holds
exactly the elements of `names`, so membership is tested on `names`). -/
def dedup_push (names : List String) (a : Option String) : List String :=
  match a with
  | none => names
  | some nm =>
    if nm = "" then names
    else if names.contains nm then names
    else names ++ [nm]

def dedup_recent (items : List (List (Option String))) : List String :=
  items.foldl (fun (names : List String) tr => tr.foldl dedup_push names) []

/-- Counting loop body of `passport_from_token_recent`: resolve a retained
name and increment its country's count. -/
def recent_count_step (useMB : Bool) (fetch : String → MBResp)
    (acc : List (String × Nat) × ResolverState) (nm : String) :
    List (String × Nat) × ResolverState :=
  let rc := infer_country_fast useMB fetch acc.2 nm
  (dictIncr acc.1 rc.1 1, rc.2)

/-- Route `GET /passport/from_token_recent` (`passport_from_token_recent`):
de-duplicates artist names, caps the working set at 12 (`names[:12]`), then
resolves and counts each retained name; `total_artists` is `len(names)` after
the cap. A malformed response (`recent` not a dict) yields `items = []`. -/
def passport_from_token_recent (useMB : Bool) (fetch : String → MBResp)
    (st : ResolverState) (items : List (List (Option String))) :
    Snapshot × ResolverState :=
  let names := (dedup_recent items).take 12
  let r := names.foldl (recent_count_step useMB fetch) ([], st)
  ({ total_artists := names.length, country_counts := r.1,
     region_percentages := rollup_regions r.1 }, r.2)

/-! ## backend/routers/community.py -/

/-- A community member: `spotify_id`, `display_name`, one snapshot. -/
structure Member where
  spotify_id : String
  display_name : Option String
  snapshot : Snapshot
deriving Repr, DecidableEq

/-- A community: `name`, `created_at` timestamp, ordered member list. -/
structure Community where
  name : String
  created_at : Nat
  members : List Member
deriving Repr, DecidableEq

/-- The in-memory `communities` registry: join code → community. -/
abbrev Communities : Type := List (String × Community)

/-- Source `_snapshot_from_top_artists`: builds the snapshot used by
`community_join`. `resp` is `none` when the Spotify response is not a dict or
lacks `"items"` (empty snapshot returned); otherwise each element models one
item of `"items"`: `none` for a falsy item (skipped by `if not artist`),
`some name` for a truthy artist dict with `"name"` field `name` (the name is
carried for comparison with the resolver but, as in the source, never read:
every counted artist goes to `"Unknown"`). `top_artists_step` is the loop
body: skip a falsy item, else count it under `"Unknown"`. -/
def top_artists_step (acc : Nat × List (String × Nat))
    (artist : Option (Option String)) : Nat × List (String × Nat) :=
  match artist with
  | none => acc
  | some _ => (acc.1 + 1, dictIncr acc.2 "Unknown" 1)

def snapshot_from_top_artists (resp : Option (List (Option (Option String)))) :
    Snapshot :=
  match resp with
  | none => { total_artists := 0, country_counts := [],
              region_percentages := [] }
  | some items =>
    let r := items.foldl (top_artists_step) (0, [])
    { total_artists := r.1, country_counts := r.2,
      region_percentages := rollup_regions r.2 }

/-- Route `POST /community/create` (`community_create`). The join code produced by
`_new_code()` is injected as `code` (it is random; no collision check is
performed in the source — `communities[code] = ...` assigns unconditionally).
FastAPI's `Query(..., min_length=2, max_length=64)` rejects other names with
a validation error before the handler body runs. Returns the possibly
updated registry; on error the registry is unchanged. -/
def community_create (comms : Communities) (code : String) (name : String)
    (now : Nat) : Communities × Except ApiError String :=
  if name.length < 2 ∨ name.length > 64 then
    (comms, Except.error ApiError.invalidInput)
  else
    (dictSet comms code { name := name, created_at := now, members := [] },
     Except.ok code)

/-- Route `POST /community/join/{code}` (`community_join`). `whoId` / `whoName`
are `_me_min(access_token)`'s `id` and `display_name` (both `None` when
`/me` fails); `snap` is the snapshot built by `_snapshot_from_top_artists`
(which never fails). Checks run in source order: unknown code → 404, falsy
id → 400, and only then is the member list rewritten (members with the same
`spotify_id` removed, the new member appended). On error the registry is
returned unchanged; on success the new member count is returned. -/
def community_join (comms : Communities) (code : String)
    (whoId whoName : Option String) (snap : Snapshot) :
    Communities × Except ApiError Nat :=
  match dictFind? comms code with
  | none => (comms, Except.error ApiError.notFound)
  | some comm =>
    match whoId with
    | none => (comms, Except.error ApiError.invalidToken)
    | some wid =>
      if wid = "" then (comms, Except.error ApiError.invalidToken)
      else
        let kept := comm.members.filter (fun m => m.spotify_id ≠ wid)
        let newMembers :=
          kept ++ [{ spotify_id := wid, display_name := whoName,
                     snapshot := snap }]
        (dictSet comms code { comm with members := newMembers },
         Except.ok newMembers.length)

/-- The response of `GET /community/{code}`: community name, per-member
listing, and the aggregated group passport. -/
structure GroupOut where
  code : String
  name : String
  members : List (String × Option String × Nat)
  group_passport : Snapshot
deriving Repr, DecidableEq

/-- Aggregation loop body of `community_get`: add one member's
`total_artists` and merge their `country_counts` into the accumulator. -/
def agg_step (acc : Nat × List (String × Nat)) (m : Member) :
    Nat × List (String × Nat) :=
  (acc.1 + m.snapshot.total_artists,
   m.snapshot.country_counts.foldl
     (fun (d : List (String × Nat)) p => dictIncr d p.1 p.2) acc.2)

/-- Route `GET /community/{code}` (`community_get`): 404 for an unknown code;
otherwise sums `total_artists` and merges `country_counts` across all
members' snapshots, then applies `rollup_regions` once to the merged
counts. -/
def community_get (comms : Communities) (code : String) :
    Except ApiError GroupOut :=
  match dictFind? comms code with
  | none => Except.error ApiError.notFound
  | some comm =>
    let agg := comm.members.foldl agg_step (0, [])
    Except.ok
      { code := code, name := comm.name,
        members := comm.members.map
          (fun m => (m.spotify_id, m.display_name,
                     m.snapshot.total_artists)),
        group_passport :=
          { total_artists := agg.1, country_counts := agg.2,
            region_percentages := rollup_regions agg.2 } }

/-! ## Operation sequences over the community store -/

/-- A mutating operation on the community registry, as reachable through the
HTTP surface: `create` (with its randomly generated code injected) or
`join`. -/
inductive Op where
  | create : String → String → Nat → Op
  | join : String → Option String → Option String → Snapshot → Op

/-- Apply one operation to the registry (errors leave it unchanged, as the
handlers raise before mutating). -/
def applyOp (comms : Communities) : Op → Communities
  | Op.create code name now => (community_create comms code name now).1
  | Op.join code whoId whoName snap =>
      (community_join comms code whoId whoName snap).1

/-- Run an operation sequence from the empty registry the process starts
with. -/
def runOps (ops : List Op) : Communities :=
  ops.foldl applyOp []

/-! ## Reference definitions used only to state theorems -/

/-- The names retained by `passport_from_token`'s loop: truthy `"name"`
fields in order. -/
def retainedNames (items : List (Option String)) : List String :=
  items.filterMap (fun o =>
    match o with
    | none => none
    | some n => if n = "" then none else some n)

/-- Resolve a list of names in order, threading the resolver state;
returns the resolved countries and the final state. -/
def resolve_all (useMB : Bool) (fetch : String → MBResp)
    (st : ResolverState) : List String → List String × ResolverState
  | [] => ([], st)
  | n :: rest =>
    let rc := infer_country_fast useMB fetch st n
    let rr := resolve_all useMB fetch rc.2 rest
    (rc.1 :: rr.1, rr.2)

/-- Keep the first occurrence of every element, dropping later
duplicates. -/
def firstSeenDedup : List String → List String
  | [] => []
  | x :: xs => x :: firstSeenDedup (xs.filter (fun y => y ≠ x))
termination_by l => l.length
decreasing_by
  simp only [List.length_cons]
  exact Nat.lt_succ_of_le (List.length_filter_le _ _)

/-- The truthy artist names of one track's artist list, in order. -/
def truthyNames (tr : List (Option String)) : List String :=
  tr.filterMap (fun a =>
    match a with
    | none => none
    | some nm => if nm = "" then none else some nm)

/-- The truthy artist names of a recently-played response, flattened in
encounter order (duplicates kept). -/
def recentNames (items : List (List (Option String))) : List String :=
  items.flatMap truthyNames

/-- Helper `dedup_push_name`: `dedup_push` restricted to an already-truthy name: keep it unless
already seen. -/
def dedup_push_name (names : List String) (nm : String) : List String :=
  if names.contains nm then names else names ++ [nm]

/-- The pure outcome of one external MusicBrainz call, as extracted by the
body of `mb_lookup_country`: country field of the first candidate, else its
truthy `area` name, else its truthy `begin-area` name, else `none` (also on
any error). -/
def mb_extract (r : MBResp) : Option String :=
  match r with
  | MBResp.error => none
  | MBResp.ok [] => none
  | MBResp.ok (a :: _) =>
    match a.country with
    | some c => some c
    | none =>
      match a.area with
      | some nm =>
        if nm = "" then
          match a.begin_area with
          | some nm2 => if nm2 = "" then none else some nm2
          | none => none
        else some nm
      | none =>
        match a.begin_area with
        | some nm2 => if nm2 = "" then none else some nm2
        | none => none

/-- The spec's per-community invariant: every community reachable in the
registry has at most one member per `spotify_id`. -/
def UniqueMembers (comms : Communities) : Prop :=
  ∀ code comm, dictFind? comms code = some comm →
    (comm.members.map Member.spotify_id).Nodup

/-! ## Dictionary lemmas -/

theorem dictIncr_nil (k : String) (v : Nat) : dictIncr [] k v = [(k, v)] := by
  simp [dictIncr, dictSet, dictGetD]

theorem dictIncr_cons (k' : String) (v' : Nat) (rest : List (String × Nat))
    (k : String) (v : Nat) :
    dictIncr ((k', v') :: rest) k v
      = if k' = k then (k', v' + v) :: rest
        else (k', v') :: dictIncr rest k v := by
  by_cases h : k' = k <;> simp [dictIncr, dictSet, dictGetD, h]

theorem dictGetD_cons (p : String × Nat) (rest : List (String × Nat))
    (k : String) :
    dictGetD (p :: rest) k 0
      = if p.1 = k then p.2 else dictGetD rest k 0 := by
  cases p
  rfl

theorem valuesSum_cons (p : String × Nat) (rest : List (String × Nat)) :
    valuesSum (p :: rest) = p.2 + valuesSum rest := by
  simp [valuesSum]

theorem dictGetD_dictIncr (d : List (String × Nat)) (k k' : String)
    (v : Nat) :
    dictGetD (dictIncr d k v) k' 0
      = dictGetD d k' 0 + if k = k' then v else 0 := by
  induction d with
  | nil => by_cases h : k = k' <;> simp [dictIncr_nil, dictGetD, h]
  | cons p rest ih =>
    obtain ⟨a, b⟩ := p
    rw [dictIncr_cons]
    by_cases hak : a = k
    · subst hak
      rw [if_pos rfl, dictGetD_cons, dictGetD_cons]
      by_cases hak' : a = k' <;> simp [hak']
    · rw [if_neg hak, dictGetD_cons, dictGetD_cons]
      by_cases hak' : a = k'
      · have hkk' : ¬ k = k' := fun h => hak (h ▸ hak')
        simp [hak', hkk']
      · simp [hak', ih]

theorem valuesSum_dictIncr (d : List (String × Nat)) (k : String) (v : Nat) :
    valuesSum (dictIncr d k v) = valuesSum d + v := by
  induction d with
  | nil => simp [dictIncr_nil, valuesSum]
  | cons p rest ih =>
    obtain ⟨a, b⟩ := p
    rw [dictIncr_cons]
    by_cases hak : a = k
    · rw [if_pos hak, valuesSum_cons, valuesSum_cons]
      omega
    · rw [if_neg hak, valuesSum_cons, valuesSum_cons, ih]
      omega

theorem dictFind?_cons {V : Type} (p : String × V) (rest : List (String × V))
    (k : String) :
    dictFind? (p :: rest) k
      = if p.1 = k then some p.2 else dictFind? rest k := by
  cases p
  rfl

theorem dictFind?_dictSet {V : Type} (d : List (String × V)) (k : String)
    (v : V) (k' : String) :
    dictFind? (dictSet d k v) k'
      = if k = k' then some v else dictFind? d k' := by
  induction d with
  | nil => by_cases h : k = k' <;> simp [dictSet, dictFind?, h]
  | cons p rest ih =>
    obtain ⟨a, b⟩ := p
    by_cases hak : a = k
    · subst hak
      show dictFind? (if a = a then (a, v) :: rest else _) k' = _
      rw [if_pos rfl, dictFind?_cons, dictFind?_cons]
      by_cases hak' : a = k' <;> simp [hak']
    · show dictFind? (if a = k then _ else (a, b) :: dictSet rest k v) k' = _
      rw [if_neg hak, dictFind?_cons, dictFind?_cons]
      by_cases hak' : a = k'
      · have hkk' : ¬ k = k' := fun h => hak (h ▸ hak')
        simp [hak', hkk']
      · simp [hak', ih]

theorem dictGetD_foldl_incr (f : String × Nat → String)
    (cc : List (String × Nat)) (d0 : List (String × Nat)) (c : String) :
    dictGetD (cc.foldl (fun d p => dictIncr d (f p) p.2) d0) c 0
      = dictGetD d0 c 0
        + ((cc.filter (fun p => f p == c)).map Prod.snd).sum := by
  induction cc generalizing d0 with
  | nil => simp
  | cons p rest ih =>
    simp only [List.foldl_cons, List.filter_cons]
    rw [ih, dictGetD_dictIncr]
    by_cases h : f p = c <;> (simp [h]; try omega)

theorem valuesSum_foldl_incr (f : String × Nat → String)
    (cc : List (String × Nat)) (d0 : List (String × Nat)) :
    valuesSum (cc.foldl (fun d p => dictIncr d (f p) p.2) d0)
      = valuesSum d0 + valuesSum cc := by
  induction cc generalizing d0 with
  | nil => simp [valuesSum]
  | cons p rest ih =>
    simp only [List.foldl_cons]
    rw [ih, valuesSum_dictIncr]
    simp [valuesSum]
    omega

theorem lookupSum_cons (p : String × Nat) (rest : List (String × Nat))
    (c : String) :
    lookupSum (p :: rest) c
      = (if p.1 = c then p.2 else 0) + lookupSum rest c := by
  by_cases h : p.1 = c <;> simp [lookupSum, List.filter_cons, h]

theorem lookupSum_zero_of_not_mem (cc : List (String × Nat)) (c : String) :
    c ∉ cc.map Prod.fst → lookupSum cc c = 0 := by
  induction cc with
  | nil => intro _; simp [lookupSum]
  | cons p rest ih =>
    intro h
    have h1 : ¬ p.1 = c := fun hc => h (by simp [hc])
    have h2 : c ∉ rest.map Prod.fst := fun hc => h (by simp [hc])
    rw [lookupSum_cons, if_neg h1, ih h2]

theorem lookupSum_eq_dictGetD (cc : List (String × Nat)) (c : String) :
    (cc.map Prod.fst).Nodup → lookupSum cc c = dictGetD cc c 0 := by
  induction cc with
  | nil => intro _; simp [lookupSum, dictGetD]
  | cons p rest ih =>
    intro h
    rw [List.map_cons, List.nodup_cons] at h
    rw [lookupSum_cons, dictGetD_cons]
    by_cases hc : p.1 = c
    · have hrest : c ∉ rest.map Prod.fst := hc ▸ h.1
      rw [if_pos hc, if_pos hc, lookupSum_zero_of_not_mem rest c hrest]
      omega
    · rw [if_neg hc, if_neg hc, ih h.2]
      omega

theorem sum_map_cast_div (l : List Nat) (T : ℚ) :
    (l.map (fun n : Nat => (n : ℚ) / T)).sum = ((l.sum : ℚ)) / T := by
  induction l with
  | nil => simp
  | cons a rest ih =>
    simp only [List.map_cons, List.sum_cons, List.sum_cons, ih]
    push_cast
    rw [add_div]

theorem dictGetD_map_div (l : List (String × Nat)) (T : ℚ) (k : String) :
    dictGetD (l.map (fun p => (p.1, (p.2 : ℚ) / T))) k 0
      = ((dictGetD l k 0 : Nat) : ℚ) / T := by
  induction l with
  | nil => simp [dictGetD]
  | cons p rest ih =>
    by_cases h : p.1 = k <;> simp [dictGetD, h, ih]

/-! ## Region rollup lemmas -/

theorem valuesSum_reg_counts (cc : List (String × Nat)) :
    valuesSum (reg_counts_of cc) = valuesSum cc := by
  have h := valuesSum_foldl_incr
    (fun p => (region_of (some p.1)).getD "Unknown") cc []
  simpa [reg_counts_of, valuesSum] using h

theorem dictGetD_reg_counts (cc : List (String × Nat)) (r : String) :
    dictGetD (reg_counts_of cc) r 0
      = ((cc.filter (fun p =>
          (region_of (some p.1)).getD "Unknown" == r)).map Prod.snd).sum := by
  have h := dictGetD_foldl_incr
    (fun p => (region_of (some p.1)).getD "Unknown") cc [] r
  simpa [reg_counts_of, dictGetD] using h

/-- C3. For an empty or all-zero `country_counts`, `rollup_regions` returns
the empty map; for a positive total it maps each country to its region
(via `COUNTRY_TO_REGION`, defaulting to `"Unknown"`), accumulates counts per
region, divides by the total across all countries, and the resulting
percentages sum to exactly 1 (hence within 1e-9 of 1.0). -/
theorem rollup_regions_correct (cc : List (String × Nat)) :
    (valuesSum cc = 0 → rollup_regions cc = [])
    ∧ (0 < valuesSum cc →
        ((rollup_regions cc).map Prod.snd).sum = 1
        ∧ |((rollup_regions cc).map Prod.snd).sum - 1| ≤ 1 / 1000000000
        ∧ ∀ r : String,
            dictGetD (rollup_regions cc) r 0
              = (((cc.filter (fun p =>
                    (region_of (some p.1)).getD "Unknown" == r)).map
                      Prod.snd).sum : ℚ) / (valuesSum cc : ℚ)) := by
  constructor
  · intro h0
    simp [rollup_regions, h0]
  · intro hpos
    have hne : valuesSum cc ≠ 0 := Nat.pos_iff_ne_zero.mp hpos
    have hcast : ((valuesSum cc : ℚ)) ≠ 0 := by
      exact_mod_cast hne
    have hsum : ((rollup_regions cc).map Prod.snd).sum = 1 := by
      rw [rollup_regions]
      simp only [hne, if_false, List.map_map]
      have hcomp :
          (Prod.snd ∘ fun p : String × Nat =>
            (p.1, (p.2 : ℚ) / (valuesSum cc : ℚ)))
          = (fun n : Nat => (n : ℚ) / (valuesSum cc : ℚ)) ∘ Prod.snd := rfl
      rw [hcomp, ← List.map_map, sum_map_cast_div]
      rw [show ((reg_counts_of cc).map Prod.snd).sum
            = valuesSum (reg_counts_of cc) from rfl]
      rw [valuesSum_reg_counts]
      exact div_self hcast
    refine ⟨hsum, ?_, ?_⟩
    · rw [hsum]
      norm_num
    · intro r
      rw [rollup_regions]
      simp only [hne, if_false]
      rw [dictGetD_map_div, dictGetD_reg_counts]

/-- Witness for C3 at the spec's own example inputs. -/
theorem rollup_regions_correct_witness :
    rollup_regions [("X", 0)] = []
    ∧ ((rollup_regions [("Canada", 3), ("Unknown", 1)]).map Prod.snd).sum = 1
    ∧ |((rollup_regions [("Canada", 3), ("Unknown", 1)]).map Prod.snd).sum
        - 1| ≤ 1 / 1000000000 :=
  ⟨(rollup_regions_correct [("X", 0)]).1 (by decide),
   ((rollup_regions_correct [("Canada", 3), ("Unknown", 1)]).2
     (by decide)).1,
   ((rollup_regions_correct [("Canada", 3), ("Unknown", 1)]).2
     (by decide)).2.1⟩

/-! ## Resolver lemmas -/

theorem mb_lookup_cached (fetch : String → MBResp) (st : ResolverState)
    (name : String) (v : Option String)
    (hm : dictFind? st.cache name = some v) :
    mb_lookup_country true fetch st name = (v, st) := by
  simp [mb_lookup_country, hm]

theorem mb_lookup_miss (fetch : String → MBResp) (st : ResolverState)
    (name : String) (hm : dictFind? st.cache name = none) :
    mb_lookup_country true fetch st name
      = (mb_extract (fetch name),
         { cache := dictSet st.cache name (mb_extract (fetch name)),
           calls := st.calls + 1 }) := by
  rcases hf : fetch name with _ | artists
  · simp [mb_lookup_country, hm, hf, mb_extract]
  · rcases artists with _ | ⟨a, rest⟩
    · simp [mb_lookup_country, hm, hf, mb_extract]
    · rcases hc : a.country with _ | c
      · rcases ha : a.area with _ | nm
        · rcases hb : a.begin_area with _ | nm2
          · simp [mb_lookup_country, hm, hf, mb_extract, hc, ha, hb]
          · by_cases h2 : nm2 = "" <;>
              simp [mb_lookup_country, hm, hf, mb_extract, hc, ha, hb, h2]
        · by_cases h1 : nm = ""
          · rcases hb : a.begin_area with _ | nm2
            · simp [mb_lookup_country, hm, hf, mb_extract, hc, ha, hb, h1]
            · by_cases h2 : nm2 = "" <;>
                simp [mb_lookup_country, hm, hf, mb_extract, hc, ha, hb,
                  h1, h2]
          · simp [mb_lookup_country, hm, hf, mb_extract, hc, ha, h1]
      · simp [mb_lookup_country, hm, hf, mb_extract, hc]

/-- C5. Every outcome of the external lookup (success, unresolved, or error)
is written into `MB_COUNTRY_CACHE` before `mb_lookup_country` returns: after
a first resolution the cache holds exactly the returned value, a second
resolution of the same name issues no further external call and returns the
same value, and a single resolution issues at most one external call. -/
theorem mb_lookup_caches_every_outcome (fetch : String → MBResp)
    (st : ResolverState) (name : String) (useMB : Bool) :
    dictFind? (mb_lookup_country true fetch st name).2.cache name
      = some (mb_lookup_country true fetch st name).1
    ∧ (mb_lookup_country useMB fetch
        (mb_lookup_country useMB fetch st name).2 name).2.calls
      = (mb_lookup_country useMB fetch st name).2.calls
    ∧ (mb_lookup_country useMB fetch
        (mb_lookup_country useMB fetch st name).2 name).1
      = (mb_lookup_country useMB fetch st name).1
    ∧ (mb_lookup_country useMB fetch st name).2.calls ≤ st.calls + 1 := by
  have hwrite : ∀ st' : ResolverState,
      dictFind? (mb_lookup_country true fetch st' name).2.cache name
        = some (mb_lookup_country true fetch st' name).1 := by
    intro st'
    rcases hm : dictFind? st'.cache name with _ | v
    · rw [mb_lookup_miss fetch st' name hm]
      simp [dictFind?_dictSet]
    · rw [mb_lookup_cached fetch st' name v hm]
      exact hm
  refine ⟨hwrite st, ?_, ?_, ?_⟩ <;> cases useMB
  · simp [mb_lookup_country]
  · rw [mb_lookup_cached fetch _ name _ (hwrite st)]
  · simp [mb_lookup_country]
  · rw [mb_lookup_cached fetch _ name _ (hwrite st)]
  · simp [mb_lookup_country]
  · rcases hm : dictFind? st.cache name with _ | v
    · rw [mb_lookup_miss fetch st name hm]
    · rw [mb_lookup_cached fetch st name v hm]
      exact Nat.le_succ _

/-- C6. The resolver never propagates a failure: whenever the seed table
misses and the MusicBrainz step yields a falsy result — in particular on an
external-collaborator error (`fetch name = MBResp.error`, covering
exceptions, timeouts, non-2xx and malformed bodies) or an unresolved
lookup — `infer_country_fast` returns the sentinel `"Unknown"` (the
embedding is a total function into `String`, so no exception escapes). -/
theorem infer_country_fast_never_raises (useMB : Bool)
    (fetch : String → MBResp) (st : ResolverState) (name : String) :
    (dictFind? QUICK_COUNTRY_SEEDS name = none →
      ((mb_lookup_country useMB fetch st name).1 = none
        ∨ (mb_lookup_country useMB fetch st name).1 = some "") →
      (infer_country_fast useMB fetch st name).1 = "Unknown")
    ∧ (dictFind? QUICK_COUNTRY_SEEDS name = none →
       dictFind? st.cache name = none →
       fetch name = MBResp.error →
       (infer_country_fast useMB fetch st name).1 = "Unknown") := by
  constructor
  · intro hseed hmb
    rcases hmb with h | h <;> simp [infer_country_fast, hseed, h]
  · intro hseed hcache herr
    cases useMB
    · simp [infer_country_fast, hseed, mb_lookup_country]
    · rw [infer_country_fast, hseed]
      rw [mb_lookup_miss fetch st name hcache, herr]
      simp [mb_extract]

/-- Witness for C6: an unseeded artist whose external lookup raises resolves
to `"Unknown"`. -/
theorem infer_country_fast_never_raises_witness :
    (infer_country_fast true (fun _ => MBResp.error)
      ⟨[], 0⟩ "Nobody").1 = "Unknown" :=
  (infer_country_fast_never_raises true (fun _ => MBResp.error)
    ⟨[], 0⟩ "Nobody").2 rfl rfl rfl

/-! ## C7 : seed-table values versus the region map -/

/-- Counterexample to C7: the seed table maps `"Bad Bunny"` to
`"Puerto Rico"`, but `COUNTRY_TO_REGION` has no entry for `"Puerto Rico"`,
so that seed value falls through to `"Unknown"` in the rollup. -/
theorem seed_table_has_unmapped_value :
    dictFind? QUICK_COUNTRY_SEEDS "Bad Bunny" = some "Puerto Rico"
    ∧ dictFind? COUNTRY_TO_REGION "Puerto Rico" = none
    ∧ (region_of (some "Puerto Rico")).getD "Unknown" = "Unknown" :=
  ⟨rfl, rfl, rfl⟩

/-- C7 (amended). Every value of the seed table except `"Puerto Rico"`
(the country of `"Bad Bunny"`) has an entry in `COUNTRY_TO_REGION`. -/
theorem seed_values_mapped_except_one :
    ∀ p ∈ QUICK_COUNTRY_SEEDS,
      p.2 = "Puerto Rico"
      ∨ (dictFind? COUNTRY_TO_REGION p.2).isSome = true := by
  decide

/-- Witness for the amended C7 at the seed entry for `"Drake"`. -/
theorem seed_values_mapped_except_one_witness :
    ("Drake", "Canada").2 = "Puerto Rico"
    ∨ (dictFind? COUNTRY_TO_REGION ("Drake", "Canada").2).isSome = true :=
  seed_values_mapped_except_one ("Drake", "Canada") (by decide)

/-! ## C8 : community creation -/

/-- Counterexample to C8: `community_create` performs no collision check —
when the freshly generated code equals an existing community's code, the
existing community (here one with a member) is silently replaced by the new
empty one. -/
theorem community_create_overwrites_on_collision :
    (community_create
        [("AB", { name := "Old", created_at := 0,
                  members := [{ spotify_id := "u1", display_name := none,
                                snapshot := { total_artists := 0,
                                              country_counts := [],
                                              region_percentages := [] } }] })]
        "AB" "New" 1).1
      = [("AB", { name := "New", created_at := 1, members := [] })]
    ∧ dictFind?
        (community_create
          [("AB", { name := "Old", created_at := 0,
                    members := [{ spotify_id := "u1", display_name := none,
                                  snapshot := { total_artists := 0,
                                                country_counts := [],
                                                region_percentages := [] } }] })]
          "AB" "New" 1).1 "AB"
      ≠ some { name := "Old", created_at := 0,
               members := [{ spotify_id := "u1", display_name := none,
                             snapshot := { total_artists := 0,
                                           country_counts := [],
                                           region_percentages := [] } }] } := by
  decide

/-- C8 (amended). `community_create` stores a fresh community with an empty
member list under the generated code unconditionally: communities under
other codes are untouched, but a colliding code overwrites the existing
community (the random code is never collision-checked). Creation fails
exactly when the name length lies outside 2..64 (FastAPI query
validation), and then the registry is unchanged. -/
theorem community_create_spec (comms : Communities) (code name : String)
    (now : Nat) :
    (2 ≤ name.length → name.length ≤ 64 →
      (community_create comms code name now).2 = Except.ok code
      ∧ dictFind? (community_create comms code name now).1 code
          = some { name := name, created_at := now, members := [] }
      ∧ ∀ code2, code2 ≠ code →
          dictFind? (community_create comms code name now).1 code2
            = dictFind? comms code2)
    ∧ ((name.length < 2 ∨ 64 < name.length) →
        community_create comms code name now
          = (comms, Except.error ApiError.invalidInput)) := by
  constructor
  · intro h1 h2
    have hok : ¬ (name.length < 2 ∨ name.length > 64) := by omega
    have hc : community_create comms code name now
        = (dictSet comms code
            { name := name, created_at := now, members := [] },
           Except.ok code) := by
      simp [community_create, hok]
    refine ⟨by rw [hc], ?_, ?_⟩
    · rw [hc, dictFind?_dictSet]
      simp
    · intro code2 hne
      rw [hc]
      show dictFind? (dictSet comms code _) code2 = _
      rw [dictFind?_dictSet, if_neg (fun h => hne h.symm)]
  · intro hbad
    simp only [community_create, if_pos hbad]

/-- Witness for the amended C8: creating `"Class A"` in an empty registry
succeeds and stores an empty member list. -/
theorem community_create_spec_witness :
    (community_create [] "AB" "Class A" 0).2 = Except.ok "AB"
    ∧ dictFind? (community_create [] "AB" "Class A" 0).1 "AB"
        = some { name := "Class A", created_at := 0, members := [] } :=
  ⟨((community_create_spec [] "AB" "Class A" 0).1 (by decide) (by decide)).1,
   ((community_create_spec [] "AB" "Class A" 0).1 (by decide)
     (by decide)).2.1⟩

/-! ## C10 : join failure atomicity -/

/-- C10. A failing join — unknown code, or an identity that cannot be
established (falsy `id` from `/me`) — returns an error and leaves the
registry, hence every community's name and members list, exactly as before;
the third conjunct states generally that any error outcome leaves the
registry unchanged (the member list is mutated only after all checks and
the snapshot build, which is total, have succeeded). -/
theorem community_join_error_preserves_state (comms : Communities)
    (code : String) (whoId whoName : Option String) (snap : Snapshot) :
    (dictFind? comms code = none →
      community_join comms code whoId whoName snap
        = (comms, Except.error ApiError.notFound))
    ∧ (∀ comm, dictFind? comms code = some comm →
        (whoId = none ∨ whoId = some "") →
        community_join comms code whoId whoName snap
          = (comms, Except.error ApiError.invalidToken))
    ∧ (∀ e, (community_join comms code whoId whoName snap).2
          = Except.error e →
        (community_join comms code whoId whoName snap).1 = comms) := by
  refine ⟨?_, ?_, ?_⟩
  · intro h
    simp [community_join, h]
  · intro comm h hbad
    rcases hbad with h2 | h2 <;> simp [community_join, h, h2]
  · intro e
    rcases h : dictFind? comms code with _ | comm
    · simp [community_join, h]
    · rcases whoId with _ | wid
      · simp [community_join, h]
      · by_cases hw : wid = ""
        · simp [community_join, h, hw]
        · intro habs
          simp [community_join, h, hw] at habs

/-- Witness for C10: joining an unknown code in the empty registry fails
with NotFound and leaves the registry empty. -/
theorem community_join_error_preserves_state_witness :
    community_join [] "ZZ" (some "u1") none
        { total_artists := 0, country_counts := [],
          region_percentages := [] }
      = ([], Except.error ApiError.notFound) :=
  (community_join_error_preserves_state [] "ZZ" (some "u1") none
    { total_artists := 0, country_counts := [],
      region_percentages := [] }).1 rfl

/-! ## C2 : rejoin replaces, membership stays unique -/

theorem members_filter_length (members : List Member) (wid : String)
    (hn : (members.map Member.spotify_id).Nodup)
    (hm : wid ∈ members.map Member.spotify_id) :
    (members.filter (fun m => m.spotify_id ≠ wid)).length + 1
      = members.length := by
  induction members with
  | nil => simp at hm
  | cons m rest ih =>
    rw [List.map_cons, List.nodup_cons] at hn
    rw [List.map_cons, List.mem_cons] at hm
    by_cases hw : m.spotify_id = wid
    · have hrest : wid ∉ rest.map Member.spotify_id := hw ▸ hn.1
      have hkeep : rest.filter (fun m => m.spotify_id ≠ wid) = rest := by
        apply List.filter_eq_self.mpr
        intro x hx
        rw [decide_eq_true_eq]
        intro hc
        exact hrest (hc ▸ List.mem_map_of_mem Member.spotify_id hx)
      have hpm : (decide (m.spotify_id ≠ wid)) = false := by
        simp [hw]
      rw [List.filter_cons]
      simp only [hpm, Bool.false_eq_true, if_false, hkeep,
        List.length_cons]
    · have hm2 : wid ∈ rest.map Member.spotify_id := by
        rcases hm with h | h
        · exact absurd h.symm hw
        · exact h
      have hstep := ih hn.2 hm2
      have hpm : (decide (m.spotify_id ≠ wid)) = true := by
        simp [hw]
      rw [List.filter_cons, hpm, if_pos rfl, List.length_cons,
        List.length_cons]
      omega

theorem join_members_nodup (members : List Member) (wid : String)
    (whoName : Option String) (snap : Snapshot)
    (hn : (members.map Member.spotify_id).Nodup) :
    (((members.filter (fun m : Member => m.spotify_id ≠ wid))
        ++ [({ spotify_id := wid, display_name := whoName,
               snapshot := snap } : Member)]).map Member.spotify_id).Nodup := by
  rw [List.map_append]
  apply List.Nodup.append
  · exact hn.sublist ((List.filter_sublist members).map Member.spotify_id)
  · simp
  · intro x hx hx2
    simp only [List.map_cons, List.map_nil, List.mem_singleton] at hx2
    subst hx2
    obtain ⟨m, hmem, hid⟩ := List.mem_map.mp hx
    have hp := List.of_mem_filter hmem
    rw [decide_eq_true_eq] at hp
    exact hp hid

theorem community_join_success (comms : Communities) (code : String)
    (comm : Community) (wid : String) (whoName : Option String)
    (snap : Snapshot) (hfind : dictFind? comms code = some comm)
    (hw : ¬ wid = "") :
    community_join comms code (some wid) whoName snap
      = (dictSet comms code
          { comm with members :=
              (comm.members.filter (fun m : Member => m.spotify_id ≠ wid))
                ++ [{ spotify_id := wid, display_name := whoName,
                      snapshot := snap }] },
         Except.ok ((comm.members.filter
                (fun m : Member => m.spotify_id ≠ wid))
                ++ [({ spotify_id := wid, display_name := whoName,
                       snapshot := snap } : Member)]).length) := by
  simp [community_join, hfind, hw]

theorem community_join_success_fst (comms : Communities) (code : String)
    (comm : Community) (wid : String) (whoName : Option String)
    (snap : Snapshot) (hfind : dictFind? comms code = some comm)
    (hw : ¬ wid = "") :
    (community_join comms code (some wid) whoName snap).1
      = dictSet comms code
          { comm with members :=
              (comm.members.filter (fun m : Member => m.spotify_id ≠ wid))
                ++ [{ spotify_id := wid, display_name := whoName,
                      snapshot := snap }] } := by
  rw [community_join_success comms code comm wid whoName snap hfind hw]

theorem uniqueMembers_applyOp (comms : Communities) (op : Op)
    (h : UniqueMembers comms) : UniqueMembers (applyOp comms op) := by
  cases op with
  | create code name now =>
    by_cases hbad : name.length < 2 ∨ name.length > 64
    · simpa [applyOp, community_create, hbad] using h
    · intro code2 comm2 hfind
      simp only [applyOp, community_create, if_neg hbad] at hfind
      rw [dictFind?_dictSet] at hfind
      by_cases hc : code = code2
      · rw [if_pos hc] at hfind
        cases hfind
        simp
      · rw [if_neg hc] at hfind
        exact h code2 comm2 hfind
  | join code whoId whoName snap =>
    rcases hfind : dictFind? comms code with _ | comm
    · simpa [applyOp, community_join, hfind] using h
    · rcases whoId with _ | wid
      · simpa [applyOp, community_join, hfind] using h
      · by_cases hw : wid = ""
        · simpa [applyOp, community_join, hfind, hw] using h
        · intro code2 comm2 hfind2
          simp only [applyOp] at hfind2
          rw [community_join_success_fst comms code comm wid whoName snap
            hfind hw] at hfind2
          rw [dictFind?_dictSet] at hfind2
          by_cases hc : code = code2
          · rw [if_pos hc] at hfind2
            cases hfind2
            exact join_members_nodup comm.members wid whoName snap
              (h code comm hfind)
          · rw [if_neg hc] at hfind2
            exact h code2 comm2 hfind2

theorem uniqueMembers_foldl (ops : List Op) (comms : Communities)
    (h : UniqueMembers comms) : UniqueMembers (ops.foldl applyOp comms) := by
  induction ops generalizing comms with
  | nil => exact h
  | cons op rest ih => exact ih _ (uniqueMembers_applyOp comms op h)

/-- C2. Rejoining a community with an `spotify_id` that already has a member
leaves the member count unchanged and replaces that member's snapshot with
the new one; and after any sequence of create/join operations from the
empty registry, every community has at most one member per `spotify_id`. -/
theorem community_join_replaces_not_appends :
    (∀ (comms : Communities) (code : String) (comm : Community)
       (wid : String) (whoName : Option String) (snap : Snapshot),
       dictFind? comms code = some comm →
       (comm.members.map Member.spotify_id).Nodup →
       wid ≠ "" →
       wid ∈ comm.members.map Member.spotify_id →
       ∃ comm' : Community,
         dictFind? (community_join comms code (some wid) whoName snap).1 code
           = some comm'
         ∧ comm'.members.length = comm.members.length
         ∧ (∀ m ∈ comm'.members, m.spotify_id = wid → m.snapshot = snap)
         ∧ wid ∈ comm'.members.map Member.spotify_id)
    ∧ ∀ ops : List Op, UniqueMembers (runOps ops) := by
  constructor
  · intro comms code comm wid whoName snap hfind hn hw hm
    refine ⟨{ comm with members :=
        (comm.members.filter (fun m : Member => m.spotify_id ≠ wid))
          ++ [{ spotify_id := wid, display_name := whoName,
                snapshot := snap }] }, ?_, ?_, ?_, ?_⟩
    · rw [community_join_success_fst comms code comm wid whoName snap
        hfind hw, dictFind?_dictSet, if_pos rfl]
    · simp only [List.length_append, List.length_cons, List.length_nil]
      have hlen := members_filter_length comm.members wid hn hm
      omega
    · intro m hmem hid
      have hmem2 : m ∈ (comm.members.filter
          (fun m : Member => m.spotify_id ≠ wid))
          ++ [({ spotify_id := wid, display_name := whoName,
                 snapshot := snap } : Member)] := hmem
      rcases List.mem_append.mp hmem2 with hk | hnew
      · have hp := List.of_mem_filter hk
        rw [decide_eq_true_eq] at hp
        exact absurd hid hp
      · rw [List.mem_singleton] at hnew
        rw [hnew]
    · show wid ∈ ((comm.members.filter
          (fun m : Member => m.spotify_id ≠ wid))
          ++ [({ spotify_id := wid, display_name := whoName,
                 snapshot := snap } : Member)]).map Member.spotify_id
      rw [List.map_append]
      apply List.mem_append_right
      simp
  · intro ops
    apply uniqueMembers_foldl
    intro code comm hfind
    simp [dictFind?] at hfind

/-- Witness for C2: rejoining with the same id keeps one member and
installs the new snapshot. -/
theorem community_join_replaces_not_appends_witness :
    ∃ comm' : Community,
      dictFind? (community_join
          [("AB", { name := "Class A", created_at := 0,
                    members := [{ spotify_id := "u1", display_name := none,
                                  snapshot := { total_artists := 0,
                                                country_counts := [],
                                                region_percentages := [] } }] })]
          "AB" (some "u1") none
          { total_artists := 1, country_counts := [("Unknown", 1)],
            region_percentages := [("Unknown", 1)] }).1 "AB"
        = some comm'
      ∧ comm'.members.length = 1
      ∧ (∀ m ∈ comm'.members, m.spotify_id = "u1" →
          m.snapshot = { total_artists := 1,
                         country_counts := [("Unknown", 1)],
                         region_percentages := [("Unknown", 1)] })
      ∧ "u1" ∈ comm'.members.map Member.spotify_id :=
  community_join_replaces_not_appends.1
    [("AB", { name := "Class A", created_at := 0,
              members := [{ spotify_id := "u1", display_name := none,
                            snapshot := { total_artists := 0,
                                          country_counts := [],
                                          region_percentages := [] } }] })]
    "AB"
    { name := "Class A", created_at := 0,
      members := [{ spotify_id := "u1", display_name := none,
                    snapshot := { total_artists := 0, country_counts := [],
                                  region_percentages := [] } }] }
    "u1" none
    { total_artists := 1, country_counts := [("Unknown", 1)],
      region_percentages := [("Unknown", 1)] }
    rfl (by decide) (by decide) (by decide)

/-! ## C1 : group aggregation -/

theorem agg_fold (members : List Member) (a0 : Nat × List (String × Nat)) :
    (members.foldl agg_step a0).1
      = a0.1 + (members.map (fun m => m.snapshot.total_artists)).sum
    ∧ ∀ c, dictGetD (members.foldl agg_step a0).2 c 0
        = dictGetD a0.2 c 0
          + (members.map
              (fun m => lookupSum m.snapshot.country_counts c)).sum := by
  induction members generalizing a0 with
  | nil => simp
  | cons m rest ih =>
    simp only [List.foldl_cons, List.map_cons, List.sum_cons]
    constructor
    · rw [(ih (agg_step a0 m)).1]
      simp only [agg_step]
      omega
    · intro c
      rw [(ih (agg_step a0 m)).2 c]
      have hstep : dictGetD (agg_step a0 m).2 c 0
          = dictGetD a0.2 c 0 + lookupSum m.snapshot.country_counts c := by
        have h2 := dictGetD_foldl_incr Prod.fst
          m.snapshot.country_counts a0.2 c
        simpa [agg_step, lookupSum] using h2
      rw [hstep]
      omega

/-- C1. For every community with a known join code, `community_get` returns
a group snapshot whose `total_artists` is the sum of the members'
`total_artists`, whose `country_counts` maps each country to the sum of that
country's count over all members' snapshots (the per-member key-uniqueness
hypothesis holds for every real Python dict), and whose
`region_percentages` are `rollup_regions` applied once to those merged
counts — never an average of the members' own percentages. -/
theorem community_get_aggregates (comms : Communities) (code : String)
    (comm : Community)
    (hfind : dictFind? comms code = some comm)
    (hnd : ∀ m ∈ comm.members,
      (m.snapshot.country_counts.map Prod.fst).Nodup) :
    ∃ out : GroupOut,
      community_get comms code = Except.ok out
      ∧ out.group_passport.total_artists
          = (comm.members.map (fun m => m.snapshot.total_artists)).sum
      ∧ (∀ c, dictGetD out.group_passport.country_counts c 0
          = (comm.members.map
              (fun m => dictGetD m.snapshot.country_counts c 0)).sum)
      ∧ out.group_passport.region_percentages
          = rollup_regions out.group_passport.country_counts := by
  refine ⟨{ code := code, name := comm.name,
            members := comm.members.map
              (fun m => (m.spotify_id, m.display_name,
                         m.snapshot.total_artists)),
            group_passport :=
              { total_artists := (comm.members.foldl agg_step (0, [])).1,
                country_counts := (comm.members.foldl agg_step (0, [])).2,
                region_percentages := rollup_regions
                  (comm.members.foldl agg_step (0, [])).2 } },
    ?_, ?_, ?_, rfl⟩
  · simp [community_get, hfind]
  · show (comm.members.foldl agg_step (0, [])).1 = _
    rw [(agg_fold comm.members (0, [])).1]
    simp
  · intro c
    show dictGetD (comm.members.foldl agg_step (0, [])).2 c 0 = _
    rw [(agg_fold comm.members (0, [])).2 c]
    have hmaps : comm.members.map
          (fun m => lookupSum m.snapshot.country_counts c)
        = comm.members.map
          (fun m => dictGetD m.snapshot.country_counts c 0) := by
      apply List.map_congr_left
      intro m hm
      exact lookupSum_eq_dictGetD _ c (hnd m hm)
    rw [hmaps]
    simp [dictGetD]

/-- Witness for C1 at the spec's worked example: members with counts
Canada 2 and Canada 1 / Unknown 1 aggregate to Canada 3, Unknown 1. -/
theorem community_get_aggregates_witness :
    ∃ out : GroupOut,
      community_get
          [("CD", { name := "C", created_at := 0,
                    members :=
                      [{ spotify_id := "u1", display_name := none,
                         snapshot := { total_artists := 2,
                                       country_counts := [("Canada", 2)],
                                       region_percentages := [] } },
                       { spotify_id := "u2", display_name := none,
                         snapshot := { total_artists := 2,
                                       country_counts :=
                                         [("Canada", 1), ("Unknown", 1)],
                                       region_percentages := [] } }] })]
          "CD"
        = Except.ok out
      ∧ out.group_passport.total_artists = 4
      ∧ dictGetD out.group_passport.country_counts "Canada" 0 = 3
      ∧ dictGetD out.group_passport.country_counts "Unknown" 0 = 1
      ∧ out.group_passport.region_percentages
          = rollup_regions out.group_passport.country_counts := by
  obtain ⟨out, h1, h2, h3, h4⟩ :=
    community_get_aggregates
      [("CD", { name := "C", created_at := 0,
                members :=
                  [{ spotify_id := "u1", display_name := none,
                     snapshot := { total_artists := 2,
                                   country_counts := [("Canada", 2)],
                                   region_percentages := [] } },
                   { spotify_id := "u2", display_name := none,
                     snapshot := { total_artists := 2,
                                   country_counts :=
                                     [("Canada", 1), ("Unknown", 1)],
                                   region_percentages := [] } }] })]
      "CD"
      { name := "C", created_at := 0,
        members :=
          [{ spotify_id := "u1", display_name := none,
             snapshot := { total_artists := 2,
                           country_counts := [("Canada", 2)],
                           region_percentages := [] } },
           { spotify_id := "u2", display_name := none,
             snapshot := { total_artists := 2,
                           country_counts :=
                             [("Canada", 1), ("Unknown", 1)],
                           region_percentages := [] } }] }
      rfl (by decide)
  refine ⟨out, h1, ?_, ?_, ?_, h4⟩
  · rw [h2]
    decide
  · rw [h3 "Canada"]
    decide
  · rw [h3 "Unknown"]
    decide

/-! ## C4 : what the snapshot builders count -/

theorem top_fold_unknown (items : List (Option (Option String))) :
    ∀ t k : Nat,
      items.foldl top_artists_step (t, [("Unknown", k)])
        = (t + items.countP (fun a => a.isSome),
           [("Unknown", k + items.countP (fun a => a.isSome))]) := by
  induction items with
  | nil => intro t k; simp
  | cons a rest ih =>
    intro t k
    cases a with
    | none =>
      simp only [List.foldl_cons, top_artists_step]
      rw [ih t k]
      simp [List.countP_cons]
    | some nm =>
      simp only [List.foldl_cons, top_artists_step]
      rw [show dictIncr [("Unknown", k)] "Unknown" 1 = [("Unknown", k + 1)]
        from by simp [dictIncr, dictSet, dictGetD]]
      rw [ih (t + 1) (k + 1)]
      have hcount : (some nm :: rest).countP (fun a => a.isSome)
          = rest.countP (fun a => a.isSome) + 1 := by
        simp [List.countP_cons]
      rw [hcount]
      rw [show t + 1 + rest.countP (fun a => a.isSome)
          = t + (rest.countP (fun a => a.isSome) + 1) from by omega]
      rw [show k + 1 + rest.countP (fun a => a.isSome)
          = k + (rest.countP (fun a => a.isSome) + 1) from by omega]

theorem top_fold_spec (items : List (Option (Option String))) :
    items.foldl top_artists_step (0, [])
      = (items.countP (fun a => a.isSome),
         if items.countP (fun a => a.isSome) = 0 then []
         else [("Unknown", items.countP (fun a => a.isSome))]) := by
  induction items with
  | nil => simp
  | cons a rest ih =>
    cases a with
    | none =>
      simp only [List.foldl_cons, top_artists_step]
      rw [ih]
      simp [List.countP_cons]
    | some nm =>
      simp only [List.foldl_cons, top_artists_step]
      rw [show dictIncr [] "Unknown" 1 = [("Unknown", 1)]
        from by simp [dictIncr, dictSet, dictGetD]]
      rw [top_fold_unknown rest 1 1]
      have hcount : (some nm :: rest).countP (fun a => a.isSome)
          = rest.countP (fun a => a.isSome) + 1 := by
        simp [List.countP_cons]
      rw [hcount,
        if_neg (by omega : ¬ (rest.countP (fun a => a.isSome) + 1 = 0))]
      rw [show 1 + rest.countP (fun a => a.isSome)
          = rest.countP (fun a => a.isSome) + 1 from by omega]

theorem from_token_fold_spec (useMB : Bool) (fetch : String → MBResp)
    (items : List (Option String)) :
    ∀ (t0 : Nat) (d0 : List (String × Nat)) (st0 : ResolverState),
      (items.foldl (from_token_step useMB fetch) (t0, d0, st0)).1
        = t0 + (retainedNames items).length
      ∧ (items.foldl (from_token_step useMB fetch) (t0, d0, st0)).2.2
        = (resolve_all useMB fetch st0 (retainedNames items)).2
      ∧ ∀ c, dictGetD
          (items.foldl (from_token_step useMB fetch) (t0, d0, st0)).2.1 c 0
          = dictGetD d0 c 0
            + (resolve_all useMB fetch st0 (retainedNames items)).1.count c := by
  induction items with
  | nil =>
    intro t0 d0 st0
    simp [retainedNames, resolve_all]
  | cons a rest ih =>
    intro t0 d0 st0
    cases a with
    | none =>
      have hr : retainedNames (none :: rest) = retainedNames rest := by
        simp [retainedNames]
      simp only [List.foldl_cons, from_token_step, hr]
      exact ih t0 d0 st0
    | some name =>
      by_cases hnm : name = ""
      · subst hnm
        have hr : retainedNames (some "" :: rest) = retainedNames rest := by
          simp [retainedNames]
        simp only [List.foldl_cons, from_token_step, if_pos rfl, hr]
        exact ih t0 d0 st0
      · have hr : retainedNames (some name :: rest)
            = name :: retainedNames rest := by
          simp [retainedNames, hnm]
        simp only [List.foldl_cons, from_token_step, if_neg hnm, hr]
        obtain ⟨ih1, ih2, ih3⟩ := ih (t0 + 1)
          (dictIncr d0 (infer_country_fast useMB fetch st0 name).1 1)
          (infer_country_fast useMB fetch st0 name).2
        refine ⟨?_, ?_, ?_⟩
        · rw [ih1]
          simp only [List.length_cons]
          omega
        · rw [ih2]
          simp [resolve_all]
        · intro c
          rw [ih3 c, dictGetD_dictIncr]
          simp only [resolve_all, List.count_cons]
          by_cases hc : (infer_country_fast useMB fetch st0 name).1 = c <;>
            (simp [hc]; try omega)

/-- Counterexample to C4: the snapshot builder used by `community_join`
ignores the resolver entirely — for the seeded artist `"Drake"` it counts
one `"Unknown"` while the resolver returns `"Canada"`, whose count stays
zero. -/
theorem community_snapshot_skips_resolver :
    (snapshot_from_top_artists
        (some [some (some "Drake")])).country_counts = [("Unknown", 1)]
    ∧ (infer_country_fast false (fun _ => MBResp.error)
        { cache := [], calls := 0 } "Drake").1 = "Canada"
    ∧ dictGetD (snapshot_from_top_artists
        (some [some (some "Drake")])).country_counts "Canada" 0 = 0 :=
  ⟨rfl, rfl, rfl⟩

/-- C4 (amended). `passport_from_token` resolves each retained name through
`infer_country_fast` (seed table, then cache, then external lookup) and
increments the resolved country's count and `total_artists` once per
retained occurrence; but the snapshot builder used when joining a community
never invokes the resolver: it counts every retained item under
`"Unknown"`. -/
theorem snapshot_builders_resolution (useMB : Bool)
    (fetch : String → MBResp) (st : ResolverState) :
    (∀ (items : List (Option String)) (snap : Snapshot)
        (st2 : ResolverState),
        passport_from_token useMB fetch st (some items)
          = (Except.ok snap, st2) →
        snap.total_artists = (retainedNames items).length
        ∧ st2 = (resolve_all useMB fetch st (retainedNames items)).2
        ∧ ∀ c, dictGetD snap.country_counts c 0
            = (resolve_all useMB fetch st (retainedNames items)).1.count c)
    ∧ (∀ items2 : List (Option (Option String)),
        (snapshot_from_top_artists (some items2)).total_artists
          = items2.countP (fun a => a.isSome)
        ∧ (snapshot_from_top_artists (some items2)).country_counts
          = (if items2.countP (fun a => a.isSome) = 0 then []
             else [("Unknown", items2.countP (fun a => a.isSome))])) := by
  constructor
  · intro items snap st2 heq
    obtain ⟨hf1, hf2, hf3⟩ := from_token_fold_spec useMB fetch items 0 [] st
    simp only [passport_from_token] at heq
    injection heq with h1 h2
    injection h1 with h1
    constructor
    · rw [← h1]
      show (items.foldl (from_token_step useMB fetch) (0, [], st)).1 = _
      rw [hf1]
      omega
    constructor
    · rw [← h2]
      exact hf2
    · intro c
      rw [← h1]
      show dictGetD
        (items.foldl (from_token_step useMB fetch) (0, [], st)).2.1 c 0 = _
      rw [hf3 c]
      simp [dictGetD]
  · intro items2
    constructor
    · show (items2.foldl top_artists_step (0, [])).1 = _
      rw [top_fold_spec]
    · show (items2.foldl top_artists_step (0, [])).2 = _
      rw [top_fold_spec]

/-- Witness for the amended C4: one seeded artist resolves to Canada and is
counted there by `passport_from_token`. -/
theorem snapshot_builders_resolution_witness :
    ∃ (snap : Snapshot) (st2 : ResolverState),
      passport_from_token false (fun _ => MBResp.error)
          { cache := [], calls := 0 } (some [some "Drake"])
        = (Except.ok snap, st2)
      ∧ snap.total_artists = 1
      ∧ dictGetD snap.country_counts "Canada" 0 = 1 := by
  obtain ⟨h1, h2, h3⟩ :=
    (snapshot_builders_resolution false (fun _ => MBResp.error)
      { cache := [], calls := 0 }).1 [some "Drake"]
      { total_artists := 1, country_counts := [("Canada", 1)],
        region_percentages := rollup_regions [("Canada", 1)] }
      { cache := [], calls := 0 } rfl
  refine ⟨{ total_artists := 1, country_counts := [("Canada", 1)],
            region_percentages := rollup_regions [("Canada", 1)] },
          { cache := [], calls := 0 }, rfl, ?_, ?_⟩
  · rw [h1]
    decide
  · rw [h3 "Canada"]
    decide

/-! ## C9 : de-duplication and capping in the recently-played builder -/

theorem dedup_push_eq_name (names : List String) (nm : String)
    (h : ¬ nm = "") :
    dedup_push names (some nm) = dedup_push_name names nm := by
  simp [dedup_push, dedup_push_name, h]

theorem tr_fold_dedup (tr : List (Option String)) :
    ∀ acc, tr.foldl dedup_push acc
      = (truthyNames tr).foldl dedup_push_name acc := by
  induction tr with
  | nil => intro acc; simp [truthyNames]
  | cons a rest ih =>
    intro acc
    cases a with
    | none =>
      have ht : truthyNames (none :: rest) = truthyNames rest := by
        simp [truthyNames]
      rw [List.foldl_cons, show dedup_push acc none = acc from rfl, ht, ih]
    | some nm =>
      by_cases h : nm = ""
      · subst h
        have ht : truthyNames (some "" :: rest) = truthyNames rest := by
          simp [truthyNames]
        rw [List.foldl_cons,
          show dedup_push acc (some "") = acc from by simp [dedup_push],
          ht, ih]
      · have ht : truthyNames (some nm :: rest)
            = nm :: truthyNames rest := by
          simp [truthyNames, h]
        rw [List.foldl_cons, dedup_push_eq_name acc nm h, ht,
          List.foldl_cons, ih]

theorem dedup_recent_eq_fold (items : List (List (Option String))) :
    ∀ acc, items.foldl (fun (names : List String) tr =>
        tr.foldl dedup_push names) acc
      = (recentNames items).foldl dedup_push_name acc := by
  induction items with
  | nil => intro acc; simp [recentNames]
  | cons tr rest ih =>
    intro acc
    have hr : recentNames (tr :: rest)
        = truthyNames tr ++ recentNames rest := by
      simp [recentNames]
    rw [List.foldl_cons, hr, List.foldl_append, ← tr_fold_dedup tr acc, ih]

theorem fold_push_name_fsd (l : List String) :
    ∀ acc, l.foldl dedup_push_name acc
      = acc ++ firstSeenDedup (l.filter (fun x => !(acc.contains x))) := by
  induction l with
  | nil => intro acc; simp [firstSeenDedup]
  | cons x xs ih =>
    intro acc
    rw [List.foldl_cons]
    by_cases hc : x ∈ acc
    · have hcb : acc.contains x = true := by simpa using hc
      have hstep : dedup_push_name acc x = acc := by
        simp only [dedup_push_name, hcb, if_true]
      rw [hstep, ih acc]
      congr 1
      rw [List.filter_cons]
      simp only [hcb, Bool.not_true, Bool.false_eq_true, if_false]
    · have hcb : acc.contains x = false := by simpa using hc
      have hstep : dedup_push_name acc x = acc ++ [x] := by
        simp only [dedup_push_name, hcb, Bool.false_eq_true, if_false]
      rw [hstep, ih (acc ++ [x])]
      rw [List.filter_cons]
      simp only [hcb, Bool.not_false, if_true]
      have hfsd : firstSeenDedup (x :: xs.filter (fun y => !(acc.contains y)))
          = x :: firstSeenDedup ((xs.filter
              (fun y => !(acc.contains y))).filter (fun y => y ≠ x)) := by
        rw [firstSeenDedup]
      rw [hfsd, List.filter_filter]
      have hpt : ∀ a ∈ xs,
          (!((acc ++ [x]).contains a))
            = (decide (a ≠ x) && (!(acc.contains a))) := by
        intro a _
        by_cases h1 : a ∈ acc <;> by_cases h2 : a = x <;> simp [h1, h2]
      rw [List.filter_congr hpt, List.append_assoc, List.singleton_append]

theorem firstSeenDedup_sublist_aux :
    ∀ (n : Nat) (l : List String), l.length ≤ n →
      List.Sublist (firstSeenDedup l) l := by
  intro n
  induction n with
  | zero =>
    intro l hl
    cases l with
    | nil => simp [firstSeenDedup]
    | cons x xs => simp at hl
  | succ n ih =>
    intro l hl
    cases l with
    | nil => simp [firstSeenDedup]
    | cons x xs =>
      rw [firstSeenDedup]
      apply List.Sublist.cons₂
      refine List.Sublist.trans (ih (xs.filter (fun y => y ≠ x)) ?_)
        (List.filter_sublist xs)
      have hle := List.length_filter_le (fun y => decide (y ≠ x)) xs
      simp only [List.length_cons] at hl
      omega

theorem firstSeenDedup_sublist (l : List String) :
    List.Sublist (firstSeenDedup l) l :=
  firstSeenDedup_sublist_aux l.length l (Nat.le_refl _)

theorem firstSeenDedup_nodup_aux :
    ∀ (n : Nat) (l : List String), l.length ≤ n →
      (firstSeenDedup l).Nodup := by
  intro n
  induction n with
  | zero =>
    intro l hl
    cases l with
    | nil => simp [firstSeenDedup]
    | cons x xs => simp at hl
  | succ n ih =>
    intro l hl
    cases l with
    | nil => simp [firstSeenDedup]
    | cons x xs =>
      rw [firstSeenDedup, List.nodup_cons]
      constructor
      · intro hmem
        have hmem2 := (firstSeenDedup_sublist _).subset hmem
        have hp := List.of_mem_filter hmem2
        simp at hp
      · apply ih
        have hle := List.length_filter_le (fun y => decide (y ≠ x)) xs
        simp only [List.length_cons] at hl
        omega

theorem firstSeenDedup_nodup (l : List String) :
    (firstSeenDedup l).Nodup :=
  firstSeenDedup_nodup_aux l.length l (Nat.le_refl _)

theorem recent_count_fold_values (useMB : Bool) (fetch : String → MBResp)
    (names : List String) :
    ∀ (d0 : List (String × Nat)) (st0 : ResolverState),
      valuesSum ((names.foldl (recent_count_step useMB fetch)
        (d0, st0)).1) = valuesSum d0 + names.length := by
  induction names with
  | nil => intro d0 st0; simp [valuesSum]
  | cons nm rest ih =>
    intro d0 st0
    rw [List.foldl_cons]
    simp only [recent_count_step]
    rw [ih, valuesSum_dictIncr]
    simp only [List.length_cons]
    omega

/-- C9. `passport_from_token_recent` first de-duplicates the artist names
(preserving first-seen order: the result is exactly the first-occurrence
de-duplication of the flattened truthy names, duplicate-free and a sublist
of them), then caps the working set at 12, and only then counts:
`total_artists` and the sum of all country counts both equal the number of
retained names after de-duplication and capping. -/
theorem passport_recent_dedups_then_caps (useMB : Bool)
    (fetch : String → MBResp) (st : ResolverState)
    (items : List (List (Option String))) :
    (passport_from_token_recent useMB fetch st items).1.total_artists
      = ((dedup_recent items).take 12).length
    ∧ valuesSum
        (passport_from_token_recent useMB fetch st items).1.country_counts
      = ((dedup_recent items).take 12).length
    ∧ dedup_recent items = firstSeenDedup (recentNames items)
    ∧ (dedup_recent items).Nodup
    ∧ List.Sublist (dedup_recent items) (recentNames items) := by
  have heq : dedup_recent items = firstSeenDedup (recentNames items) := by
    rw [dedup_recent, dedup_recent_eq_fold items [], fold_push_name_fsd]
    simp
  refine ⟨rfl, ?_, heq, ?_, ?_⟩
  · show valuesSum (((dedup_recent items).take 12).foldl
        (recent_count_step useMB fetch) ([], st)).1 = _
    rw [recent_count_fold_values]
    simp [valuesSum]
  · rw [heq]
    exact firstSeenDedup_nodup _
  · rw [heq]
    exact firstSeenDedup_sublist _

end Tuniverse
